/-
  Verification of the WeChat-Work group-chat archive system
  (api/src: models.py, database.py, schemas.py, routes.py).

  Shallow embedding notes:
  * SQLAlchemy rows become Lean structures restricted to the columns the
    verified properties touch; timestamps become `Int` (datetime objects in
    Python 3 are always truthy, so truthiness checks on them reduce to
    presence checks on the `Option`).
  * The service layer (services/group_service.py, services/message_service.py,
    services/sync_service.py) is imported by routes.py but is not part of the
    sources; operations living there are modelled from the spec and are marked
    as such in their doc comments.
-/
import Mathlib

namespace WeworkArchive

/-- models.py `MessageType(str, enum.Enum)`: the closed set of message type
tags. -/
inductive MessageType where
  | text
  | image
  | voice
  | video
  | file
  | location
  | link
  | miniprogram
  | card
  | system
  | revoke
  | emotion
deriving DecidableEq, Repr

/-- The string value of each `MessageType` member, exactly the enum values in
models.py. -/
def MessageType.value : MessageType → String
  | .text => "text"
  | .image => "image"
  | .voice => "voice"
  | .video => "video"
  | .file => "file"
  | .location => "location"
  | .link => "link"
  | .miniprogram => "miniprogram"
  | .card => "card"
  | .system => "system"
  | .revoke => "revoke"
  | .emotion => "emotion"

/-- All members of the `MessageType` enum, in declaration order. -/
def MessageType.all : List MessageType :=
  [.text, .image, .voice, .video, .file, .location, .link, .miniprogram,
   .card, .system, .revoke, .emotion]

/-- `MessageType(s)` lookup semantics of a Python `str` enum: the member whose
value equals `s`, if any. -/
def MessageType.fromString (s : String) : Option MessageType :=
  MessageType.all.find? (fun t => t.value == s)

/-- models.py `MemberType(str, enum.Enum)`. -/
inductive MemberType where
  | owner
  | admin
  | member
deriving DecidableEq, Repr

/-- models.py `TaskStatus(str, enum.Enum)` (also the string statuses used by
the `SyncTask.status` column). -/
inductive TaskStatus where
  | pending
  | running
  | completed
  | failed
  | cancelled
deriving DecidableEq, Repr

/-- A task status is active when it is non-terminal (`pending` or
`running`); `completed`, `failed` and `cancelled` are terminal. -/
def TaskStatus.isActive : TaskStatus → Bool
  | .pending => true
  | .running => true
  | _ => false

/-- models.py `ChatMessage`, restricted to the columns the verified
properties touch.  The column declarations impose `seq` unique and `msgid`
unique (both nullable=False). -/
structure ChatMessage where
  seq : Int
  msgid : String
  roomid : String
  msgtype : MessageType
  msgtime : Int
  from_user : Option String
  content : Option String
deriving DecidableEq, Repr

/-- models.py `ChatMember`, restricted to the columns the verified properties
touch.  `idx_members_unique` makes (roomid, userid, join_time) a unique
composite key. -/
structure ChatMember where
  roomid : String
  userid : String
  join_time : Int
  member_type : MemberType
  is_active : Bool
  quit_time : Option Int
deriving DecidableEq, Repr

/-- The composite identity of a member record, per `idx_members_unique`. -/
def ChatMember.key (r : ChatMember) : String × String × Int :=
  (r.roomid, r.userid, r.join_time)

/-- models.py `ChatGroup`, restricted to the columns the verified properties
touch.  `roomid` is the primary key. -/
structure ChatGroup where
  roomid : String
  room_name : String
  owner_corpid : String
  member_count : Int
  is_active : Bool
deriving DecidableEq, Repr

/-- models.py `SyncTask`, restricted to the columns the verified properties
touch.  `task_id` is unique; `roomid` is nullable (None means the "all
groups" scope). -/
structure SyncTask where
  task_id : String
  roomid : Option String
  status : TaskStatus
deriving DecidableEq, Repr

/-- The whole durable store: one list per table (rows in commit order). -/
structure ArchiveState where
  groups : List ChatGroup
  messages : List ChatMessage
  members : List ChatMember
  tasks : List SyncTask
deriving DecidableEq, Repr

/-- The initial, empty store. -/
def ArchiveState.init : ArchiveState := ⟨[], [], [], []⟩

/-- Outcome of persisting one decoded message, per the spec's
`PersistResult\x7bcommitted, skipped_duplicates, errors\x7d`. -/
inductive PersistOutcome where
  | committed
  | skippedDuplicate
  | errored
deriving DecidableEq, Repr

/-- Modelled from the spec: the Upsert Engine's per-message insert (the
service layer holding it is not among the sources).  Messages are "inserted
keyed by `msgid` with insert-if-absent, otherwise no-op semantics — a
duplicate delivery is idempotent and contributes to `skipped_duplicates`,
not to `errors`"; a group row is "created on first message referencing it".
The `seq` unique constraint of models.py rejects a row that reuses an
existing `seq` under a fresh `msgid`. -/
def persistMessage (s : ArchiveState) (corpid : String) (m : ChatMessage) :
    ArchiveState × PersistOutcome :=
  if s.messages.any (fun m0 => m0.msgid == m.msgid) then
    (s, .skippedDuplicate)
  else if s.messages.any (fun m0 => m0.seq == m.seq) then
    (s, .errored)
  else
    let groups :=
      if s.groups.any (fun g => g.roomid == m.roomid) then s.groups
      else s.groups ++ [⟨m.roomid, "", corpid, 0, true⟩]
    ({ s with groups := groups, messages := s.messages ++ [m] }, .committed)

/-- Modelled from the spec: the Upsert Engine's member side-effect, an
upsert by the unique key (roomid, userid, join_time) of
`idx_members_unique`: an existing record with the same composite key is
updated in place, otherwise a new record is appended — "a user may rejoin,
producing a new record" with a new join_time. -/
def upsertMember (s : ArchiveState) (rec : ChatMember) : ArchiveState :=
  if s.members.any (fun r => r.key == rec.key) then
    { s with members := s.members.map (fun r => if r.key == rec.key then rec else r) }
  else
    { s with members := s.members ++ [rec] }

/-- Modelled from the spec: group removal is "cascade-deactivate, not
cascade-delete, to preserve archive history" — the group's `is_active` flag
and those of its members are set to false; no row is removed and messages
are untouched. -/
def deactivateGroup (s : ArchiveState) (roomid : String) : ArchiveState :=
  { s with
    groups := s.groups.map (fun g =>
      if g.roomid == roomid then { g with is_active := false } else g),
    members := s.members.map (fun r =>
      if r.roomid == roomid then { r with is_active := false } else r) }

/-- Outcome of a start-sync request. -/
inductive StartOutcome where
  | accepted
  | rejected
deriving DecidableEq, Repr

/-- Modelled from the spec: `SyncService.create_sync_task` behind the POST
/sync route (the service layer is not among the sources).  "Exactly one
active run per target scope (a single group, or all groups) is permitted at
a time; a start request for a scope with an active run is rejected rather
than queued."  The `task_id` unique constraint of models.py also rejects a
reused task id. -/
def startSync (s : ArchiveState) (task_id : String) (scope : Option String) :
    ArchiveState × StartOutcome :=
  if s.tasks.any (fun t => t.roomid == scope && t.status.isActive) then
    (s, .rejected)
  else if s.tasks.any (fun t => t.task_id == task_id) then
    (s, .rejected)
  else
    ({ s with tasks := s.tasks ++ [⟨task_id, scope, .pending⟩] }, .accepted)

/-- Modelled from the spec: the Controller's `pending → running` transition
at task start. -/
def beginRun (s : ArchiveState) (task_id : String) : ArchiveState :=
  { s with tasks := s.tasks.map (fun t =>
      if t.task_id == task_id && t.status == .pending then
        { t with status := .running } else t) }

/-- Modelled from the spec: the Controller finalizing a running task into a
terminal state (`completed` on a normal drain, `failed` on a fatal error). -/
def finishRun (s : ArchiveState) (task_id : String) (final : TaskStatus) : ArchiveState :=
  { s with tasks := s.tasks.map (fun t =>
      if t.task_id == task_id && t.status == .running then
        { t with status := final } else t) }

/-- Modelled from the spec: `SyncService.cancel_task` behind the DELETE
/sync/tasks/\x7btask_id\x7d route — a task still pending or running is finalized
as `cancelled`; a terminal task cannot be cancelled. -/
def cancelTask (s : ArchiveState) (task_id : String) : ArchiveState :=
  { s with tasks := s.tasks.map (fun t =>
      if t.task_id == task_id && t.status.isActive then
        { t with status := .cancelled } else t) }

/-- The core operations that mutate the store. -/
inductive Op where
  | persist (corpid : String) (m : ChatMessage)
  | upsertMem (rec : ChatMember)
  | deactivate (roomid : String)
  | start (task_id : String) (scope : Option String)
  | beginTask (task_id : String)
  | finish (task_id : String) (final : TaskStatus)
  | cancel (task_id : String)

/-- One step of the store under a core operation (outcomes dropped). -/
def ArchiveState.apply (s : ArchiveState) : Op → ArchiveState
  | .persist corpid m => (persistMessage s corpid m).1
  | .upsertMem rec => upsertMember s rec
  | .deactivate roomid => deactivateGroup s roomid
  | .start task_id scope => (startSync s task_id scope).1
  | .beginTask task_id => beginRun s task_id
  | .finish task_id final => finishRun s task_id final
  | .cancel task_id => cancelTask s task_id

/-- The store reached by a sequence of core operations from the empty
store. -/
def runOps (ops : List Op) : ArchiveState :=
  ops.foldl ArchiveState.apply ArchiveState.init

/-- What happened to the session inside one `with_db_session` call: how many
times it was committed and rolled back, and whether it was closed. -/
structure SessionTrace where
  commits : Nat
  rollbacks : Nat
  closed : Bool
deriving DecidableEq, Repr

/-- database.py `with_db_session`: the wrapped coroutine `func` runs against
a session opened on the current store; on a normal return the session is
committed (the transaction's writes become the new store) and the result
returned; on an exception the session is rolled back (the store is left as
it was) and the exception re-raised; the session is closed in the `finally`
on both paths.  `func` is embedded as a function from the store seen by the
session to either an exception or a result paired with the written store. -/
def with_db_session {σ ε α : Type} (func : σ → Except ε (α × σ)) (db : σ) :
    Except ε α × σ × SessionTrace :=
  match func db with
  | .ok (result, db1) => (.ok result, db1, ⟨1, 0, true⟩)
  | .error e => (.error e, db, ⟨0, 1, true⟩)

/-- Rounding to two decimal places, modelling Python's `round(x, 2)` on the
exact rational value. -/
def round2 (q : ℚ) : ℚ := (round (q * 100) : ℤ) / 100

/-- models.py `SyncTask.progress_percentage`: `if self.total_count and
self.total_count > 0: return round((self.progress / self.total_count) * 100,
2)` and `return 0` otherwise.  `total_count` is a nullable Integer column, so
it is embedded as `Option Int`; Python truthiness of `None` and `0` is both
falsy, hence the two-part guard. -/
def progress_percentage (progress : Int) (total_count : Option Int) : ℚ :=
  match total_count with
  | none => 0
  | some t => if t ≠ 0 ∧ t > 0 then round2 (((progress : ℚ) / (t : ℚ)) * 100) else 0

/-- The percentage formula exactly as the claim words it ("if total_count is
zero or unset the progress percentage is 0, and otherwise it equals progress
divided by total_count times 100, rounded to two decimals"), for comparison
against the source definition. -/
def progress_percentage_claimed (progress : Int) (total_count : Option Int) : ℚ :=
  match total_count with
  | none => 0
  | some t => if t = 0 then 0 else round2 (((progress : ℚ) / (t : ℚ)) * 100)

/-- schemas.py `SyncTaskRequest.end_time_must_be_after_start_time`: the
pydantic validator on `end_time`.  `if v and values.get('start_time') and
v <= values['start_time']: raise ValueError(...)`, else `return v`.
Datetimes are embedded as `Int`; a Python 3 datetime object is always
truthy, so the truthiness tests reduce to presence of the optional
fields. -/
def end_time_must_be_after_start_time (start_time end_time : Option Int) :
    Except String (Option Int) :=
  match end_time with
  | none => .ok none
  | some v =>
    match start_time with
    | some s => if v ≤ s then .error "结束时间必须晚于开始时间" else .ok (some v)
    | none => .ok (some v)

/-- Per-batch result of the Upsert Engine, per the spec's
`PersistResult\x7bcommitted, skipped_duplicates, errors\x7d`. -/
structure BatchResult where
  committed : Nat
  skipped_duplicates : Nat
  errors : Nat
deriving DecidableEq, Repr

/-- The number of envelopes a batch accounts for: every envelope is either
committed, skipped as a duplicate, or recorded as an error. -/
def BatchResult.size (b : BatchResult) : Nat :=
  b.committed + b.skipped_duplicates + b.errors

/-- The progress counters of a SyncTask row that the Controller mutates. -/
structure SyncCounters where
  progress : Nat
  total_count : Nat
  success_count : Nat
  error_count : Nat
deriving DecidableEq, Repr

/-- Modelled from the spec: the counters of a freshly created task —
progress/success/error start at 0, `total_count` is the known number of
envelopes in scope. -/
def SyncCounters.init (total : Nat) : SyncCounters := ⟨0, total, 0, 0⟩

/-- Modelled from the spec: the Sync Task Controller's per-batch counter
update ("progress counters are updated after every batch") — `progress`
advances by the envelopes the batch accounted for, `success_count` by the
committed ones, `error_count` by the errored ones. -/
def SyncCounters.applyBatch (c : SyncCounters) (b : BatchResult) : SyncCounters :=
  { c with
    progress := c.progress + b.size
    success_count := c.success_count + b.committed
    error_count := c.error_count + b.errors }

/-- Every observable state of the counters over a run: before any batch,
after each batch (a concurrently polled task record sees exactly these). -/
def counterObservations (total : Nat) (batches : List BatchResult) :
    List SyncCounters :=
  batches.scanl SyncCounters.applyBatch (SyncCounters.init total)

/-! ## Store invariants -/

/-- `msgid` is a unique key over the stored messages (models.py:
`msgid = Column(..., unique=True, ...)`). -/
def msgidDistinct (l : List ChatMessage) : Prop :=
  l.Pairwise (fun a b => a.msgid ≠ b.msgid)

/-- `seq` is a unique key over the stored messages (models.py:
`seq = Column(BigInteger, unique=True, ...)`). -/
def seqDistinct (l : List ChatMessage) : Prop :=
  l.Pairwise (fun a b => a.seq ≠ b.seq)

/-- (roomid, userid, join_time) is a unique composite key over the stored
members (models.py: `idx_members_unique`). -/
def memberKeysDistinct (l : List ChatMember) : Prop :=
  l.Pairwise (fun a b => a.key ≠ b.key)

/-- At most one non-terminal (pending or running) task exists per scope. -/
def scopeExclusive (l : List SyncTask) : Prop :=
  l.Pairwise (fun a b => a.roomid = b.roomid →
    ¬(a.status.isActive = true ∧ b.status.isActive = true))

/-- All store invariants together. -/
def Inv (s : ArchiveState) : Prop :=
  msgidDistinct s.messages ∧ seqDistinct s.messages ∧
  memberKeysDistinct s.members ∧ scopeExclusive s.tasks

lemma Inv_init : Inv ArchiveState.init := by
  refine ⟨List.Pairwise.nil, List.Pairwise.nil, List.Pairwise.nil, List.Pairwise.nil⟩

lemma forall_of_not_any {α : Type} {l : List α} {p : α → Bool}
    (h : ¬ l.any p = true) : ∀ x ∈ l, ¬ p x = true := by
  simpa [List.any_eq_true] using h

lemma memberKeysDistinct_map {l : List ChatMember} (f : ChatMember → ChatMember)
    (hk : ∀ r, (f r).key = r.key)
    (h : memberKeysDistinct l) : memberKeysDistinct (l.map f) := by
  refine List.Pairwise.map f ?_ h
  intro a b hab
  rw [hk, hk]
  exact hab

lemma scopeExclusive_map {l : List SyncTask} (f : SyncTask → SyncTask)
    (hroom : ∀ t, (f t).roomid = t.roomid)
    (hact : ∀ t, (f t).status.isActive = true → t.status.isActive = true)
    (h : scopeExclusive l) : scopeExclusive (l.map f) := by
  refine List.Pairwise.map f ?_ h
  intro a b hab hr hacts
  rw [hroom, hroom] at hr
  exact hab hr ⟨hact a hacts.1, hact b hacts.2⟩

lemma persistMessage_inv {s : ArchiveState} (corpid : String) (m : ChatMessage)
    (h1 : msgidDistinct s.messages) (h2 : seqDistinct s.messages) :
    msgidDistinct ((persistMessage s corpid m).1).messages ∧
    seqDistinct ((persistMessage s corpid m).1).messages := by
  unfold persistMessage
  split
  · exact ⟨h1, h2⟩
  · split
    · exact ⟨h1, h2⟩
    · rename_i hmsgid hseq
      have hmsg : ∀ x ∈ s.messages, x.msgid ≠ m.msgid := by
        intro x hx
        have := forall_of_not_any hmsgid x hx
        simpa using this
      have hsq : ∀ x ∈ s.messages, x.seq ≠ m.seq := by
        intro x hx
        have := forall_of_not_any hseq x hx
        simpa using this
      constructor
      · refine List.pairwise_append.mpr ⟨h1, List.pairwise_singleton _ _, ?_⟩
        intro a ha b hb
        rw [List.mem_singleton] at hb
        subst hb
        exact hmsg a ha
      · refine List.pairwise_append.mpr ⟨h2, List.pairwise_singleton _ _, ?_⟩
        intro a ha b hb
        rw [List.mem_singleton] at hb
        subst hb
        exact hsq a ha

lemma upsertMember_inv {s : ArchiveState} (rec : ChatMember)
    (h : memberKeysDistinct s.members) :
    memberKeysDistinct (upsertMember s rec).members := by
  unfold upsertMember
  split
  · refine memberKeysDistinct_map _ ?_ h
    intro r
    split
    · rename_i hk
      have : r.key = rec.key := by simpa using hk
      exact this.symm
    · rfl
  · rename_i hnone
    have hfresh : ∀ x ∈ s.members, x.key ≠ rec.key := by
      intro x hx
      have := forall_of_not_any hnone x hx
      simpa using this
    refine List.pairwise_append.mpr ⟨h, List.pairwise_singleton _ _, ?_⟩
    intro a ha b hb
    rw [List.mem_singleton] at hb
    subst hb
    exact hfresh a ha

lemma deactivateGroup_inv {s : ArchiveState} (roomid : String)
    (h : memberKeysDistinct s.members) :
    memberKeysDistinct (deactivateGroup s roomid).members := by
  unfold deactivateGroup
  refine memberKeysDistinct_map _ ?_ h
  intro r
  split <;> rfl

lemma startSync_inv {s : ArchiveState} (task_id : String) (scope : Option String)
    (h : scopeExclusive s.tasks) :
    scopeExclusive ((startSync s task_id scope).1).tasks := by
  unfold startSync
  split
  · exact h
  · split
    · exact h
    · rename_i hnoactive _
      have hfresh : ∀ t ∈ s.tasks, t.roomid = scope → ¬ t.status.isActive = true := by
        intro t ht heq hact
        have := forall_of_not_any hnoactive t ht
        simp [heq, hact] at this
      refine List.pairwise_append.mpr ⟨h, List.pairwise_singleton _ _, ?_⟩
      intro a ha b hb
      rw [List.mem_singleton] at hb
      subst hb
      intro hr hacts
      exact hfresh a ha hr hacts.1

lemma beginRun_inv {s : ArchiveState} (task_id : String)
    (h : scopeExclusive s.tasks) : scopeExclusive (beginRun s task_id).tasks := by
  unfold beginRun
  refine scopeExclusive_map _ ?_ ?_ h
  · intro t; split <;> rfl
  · intro t hact
    by_cases hc : (t.task_id == task_id && t.status == TaskStatus.pending) = true
    · simp only [Bool.and_eq_true, beq_iff_eq] at hc
      rw [hc.2]
      rfl
    · simpa [hc] using hact

lemma finishRun_inv {s : ArchiveState} (task_id : String) (final : TaskStatus)
    (h : scopeExclusive s.tasks) :
    scopeExclusive (finishRun s task_id final).tasks := by
  unfold finishRun
  refine scopeExclusive_map _ ?_ ?_ h
  · intro t; split <;> rfl
  · intro t hact
    by_cases hc : (t.task_id == task_id && t.status == TaskStatus.running) = true
    · simp only [Bool.and_eq_true, beq_iff_eq] at hc
      rw [hc.2]
      rfl
    · simpa [hc] using hact

lemma cancelTask_inv {s : ArchiveState} (task_id : String)
    (h : scopeExclusive s.tasks) : scopeExclusive (cancelTask s task_id).tasks := by
  unfold cancelTask
  refine scopeExclusive_map _ ?_ ?_ h
  · intro t; split <;> rfl
  · intro t hact
    by_cases hc : (t.task_id == task_id && t.status.isActive) = true
    · simp only [Bool.and_eq_true, beq_iff_eq] at hc
      exact hc.2
    · simpa [hc] using hact

lemma persistMessage_members (s : ArchiveState) (corpid : String) (m : ChatMessage) :
    ((persistMessage s corpid m).1).members = s.members := by
  unfold persistMessage
  split
  · rfl
  · split <;> rfl

lemma persistMessage_tasks (s : ArchiveState) (corpid : String) (m : ChatMessage) :
    ((persistMessage s corpid m).1).tasks = s.tasks := by
  unfold persistMessage
  split
  · rfl
  · split <;> rfl

lemma upsertMember_messages (s : ArchiveState) (rec : ChatMember) :
    (upsertMember s rec).messages = s.messages := by
  unfold upsertMember
  split <;> rfl

lemma upsertMember_tasks (s : ArchiveState) (rec : ChatMember) :
    (upsertMember s rec).tasks = s.tasks := by
  unfold upsertMember
  split <;> rfl

lemma startSync_messages (s : ArchiveState) (task_id : String) (scope : Option String) :
    ((startSync s task_id scope).1).messages = s.messages := by
  unfold startSync
  split
  · rfl
  · split <;> rfl

lemma startSync_members (s : ArchiveState) (task_id : String) (scope : Option String) :
    ((startSync s task_id scope).1).members = s.members := by
  unfold startSync
  split
  · rfl
  · split <;> rfl

lemma Inv_apply {s : ArchiveState} (op : Op) (h : Inv s) : Inv (s.apply op) := by
  obtain ⟨h1, h2, h3, h4⟩ := h
  cases op with
  | persist corpid m =>
    obtain ⟨h1s, h2s⟩ := persistMessage_inv corpid m h1 h2
    exact ⟨h1s, h2s,
      by rw [ArchiveState.apply, persistMessage_members]; exact h3,
      by rw [ArchiveState.apply, persistMessage_tasks]; exact h4⟩
  | upsertMem rec =>
    exact ⟨by rw [ArchiveState.apply, upsertMember_messages]; exact h1,
      by rw [ArchiveState.apply, upsertMember_messages]; exact h2,
      upsertMember_inv rec h3,
      by rw [ArchiveState.apply, upsertMember_tasks]; exact h4⟩
  | deactivate roomid =>
    exact ⟨h1, h2, deactivateGroup_inv roomid h3, h4⟩
  | start task_id scope =>
    exact ⟨by rw [ArchiveState.apply, startSync_messages]; exact h1,
      by rw [ArchiveState.apply, startSync_messages]; exact h2,
      by rw [ArchiveState.apply, startSync_members]; exact h3,
      startSync_inv task_id scope h4⟩
  | beginTask task_id =>
    exact ⟨h1, h2, h3, beginRun_inv task_id h4⟩
  | finish task_id final =>
    exact ⟨h1, h2, h3, finishRun_inv task_id final h4⟩
  | cancel task_id =>
    exact ⟨h1, h2, h3, cancelTask_inv task_id h4⟩

lemma Inv_foldl (more : List Op) :
    ∀ s : ArchiveState, Inv s → Inv (more.foldl ArchiveState.apply s) := by
  induction more with
  | nil => intro s hs; exact hs
  | cons op rest ih =>
    intro s hs
    exact ih _ (Inv_apply op hs)

lemma Inv_runOps (ops : List Op) : Inv (runOps ops) :=
  Inv_foldl ops ArchiveState.init Inv_init

/-! ## Nothing is ever hard-deleted -/

/-- Every row of `s` is still present in `s1`: message rows verbatim (no
operation mutates a committed message), member rows up to their composite
identity, group rows up to their primary key. -/
def presencePreserved (s s1 : ArchiveState) : Prop :=
  (∀ m ∈ s.messages, m ∈ s1.messages) ∧
  (∀ r ∈ s.members, ∃ r1 ∈ s1.members, r1.key = r.key) ∧
  (∀ g ∈ s.groups, ∃ g1 ∈ s1.groups, g1.roomid = g.roomid)

lemma presencePreserved_refl (s : ArchiveState) : presencePreserved s s :=
  ⟨fun _ hm => hm, fun r hr => ⟨r, hr, rfl⟩, fun g hg => ⟨g, hg, rfl⟩⟩

lemma presencePreserved_trans {s1 s2 s3 : ArchiveState}
    (h12 : presencePreserved s1 s2) (h23 : presencePreserved s2 s3) :
    presencePreserved s1 s3 := by
  obtain ⟨hm12, hr12, hg12⟩ := h12
  obtain ⟨hm23, hr23, hg23⟩ := h23
  refine ⟨fun m hm => hm23 m (hm12 m hm), ?_, ?_⟩
  · intro r hr
    obtain ⟨r2, hr2, hk2⟩ := hr12 r hr
    obtain ⟨r3, hr3, hk3⟩ := hr23 r2 hr2
    exact ⟨r3, hr3, hk3.trans hk2⟩
  · intro g hg
    obtain ⟨g2, hg2, hk2⟩ := hg12 g hg
    obtain ⟨g3, hg3, hk3⟩ := hg23 g2 hg2
    exact ⟨g3, hg3, hk3.trans hk2⟩

lemma members_presence_map {l : List ChatMember} (f : ChatMember → ChatMember)
    (hk : ∀ r, (f r).key = r.key) :
    ∀ r ∈ l, ∃ r1 ∈ l.map f, r1.key = r.key :=
  fun r hr => ⟨f r, List.mem_map_of_mem f hr, hk r⟩

lemma presencePreserved_apply (s : ArchiveState) (op : Op) :
    presencePreserved s (s.apply op) := by
  cases op with
  | persist corpid m =>
    show presencePreserved s (persistMessage s corpid m).1
    unfold persistMessage
    split
    · exact presencePreserved_refl s
    · split
      · exact presencePreserved_refl s
      · refine ⟨fun x hx => List.mem_append_left _ hx, fun r hr => ⟨r, hr, rfl⟩, ?_⟩
        intro g hg
        split
        · exact ⟨g, hg, rfl⟩
        · exact ⟨g, List.mem_append_left _ hg, rfl⟩
  | upsertMem rec =>
    show presencePreserved s (upsertMember s rec)
    unfold upsertMember
    split
    · refine ⟨fun x hx => hx, ?_, fun g hg => ⟨g, hg, rfl⟩⟩
      refine members_presence_map _ ?_
      intro r
      split
      · rename_i hk
        have hkey : r.key = rec.key := by simpa using hk
        exact hkey.symm
      · rfl
    · exact ⟨fun x hx => hx, fun r hr => ⟨r, List.mem_append_left _ hr, rfl⟩,
        fun g hg => ⟨g, hg, rfl⟩⟩
  | deactivate roomid =>
    show presencePreserved s (deactivateGroup s roomid)
    unfold deactivateGroup
    refine ⟨fun x hx => hx, ?_, ?_⟩
    · refine members_presence_map _ ?_
      intro r
      split <;> rfl
    · intro g hg
      refine ⟨if g.roomid == roomid then { g with is_active := false } else g,
        List.mem_map_of_mem _ hg, ?_⟩
      split <;> rfl
  | start task_id scope =>
    show presencePreserved s (startSync s task_id scope).1
    unfold startSync
    split
    · exact presencePreserved_refl s
    · split
      · exact presencePreserved_refl s
      · exact ⟨fun x hx => hx, fun r hr => ⟨r, hr, rfl⟩, fun g hg => ⟨g, hg, rfl⟩⟩
  | beginTask task_id =>
    exact ⟨fun x hx => hx, fun r hr => ⟨r, hr, rfl⟩, fun g hg => ⟨g, hg, rfl⟩⟩
  | finish task_id final =>
    exact ⟨fun x hx => hx, fun r hr => ⟨r, hr, rfl⟩, fun g hg => ⟨g, hg, rfl⟩⟩
  | cancel task_id =>
    exact ⟨fun x hx => hx, fun r hr => ⟨r, hr, rfl⟩, fun g hg => ⟨g, hg, rfl⟩⟩

lemma presencePreserved_foldl (more : List Op) :
    ∀ s : ArchiveState, presencePreserved s (more.foldl ArchiveState.apply s) := by
  induction more with
  | nil => intro s; exact presencePreserved_refl s
  | cons op rest ih =>
    intro s
    exact presencePreserved_trans (presencePreserved_apply s op) (ih (s.apply op))

/-! ## Counter reconciliation -/

lemma counters_scanl_inv (batches : List BatchResult) :
    ∀ c : SyncCounters,
      c.success_count + c.error_count ≤ c.progress →
      c.progress + (batches.map BatchResult.size).sum ≤ c.total_count →
      ∀ x ∈ batches.scanl SyncCounters.applyBatch c,
        x.success_count + x.error_count ≤ x.progress ∧ x.progress ≤ x.total_count := by
  induction batches with
  | nil =>
    intro c h1 h2 x hx
    rw [List.scanl_nil, List.mem_singleton] at hx
    subst hx
    simp only [List.map_nil, List.sum_nil, Nat.add_zero] at h2
    exact ⟨h1, h2⟩
  | cons b rest ih =>
    intro c h1 h2 x hx
    rw [List.scanl_cons] at hx
    rcases List.mem_cons.mp hx with hx | hx
    · subst hx
      refine ⟨h1, ?_⟩
      simp only [List.map_cons, List.sum_cons] at h2
      omega
    · refine ih (c.applyBatch b) ?_ ?_ x hx
      · simp only [SyncCounters.applyBatch, BatchResult.size]
        omega
      · simp only [SyncCounters.applyBatch, BatchResult.size]
        simp only [List.map_cons, List.sum_cons, BatchResult.size] at h2
        omega

/-! ## Claim theorems -/

/-- C1: persisting the same decoded message twice (same msgid) yields exactly
one stored Message — in every reachable store, msgid is a unique key over the
stored messages, and persisting a message whose msgid is already present is a
no-op that leaves the store unchanged and is counted as a skipped duplicate,
not an error. -/
theorem msgid_dedup_idempotent (ops : List Op) (corpid : String) (m : ChatMessage)
    (hdup : ∃ m0 ∈ (runOps ops).messages, m0.msgid = m.msgid) :
    msgidDistinct (runOps ops).messages ∧
    persistMessage (runOps ops) corpid m = (runOps ops, PersistOutcome.skippedDuplicate) := by
  refine ⟨(Inv_runOps ops).1, ?_⟩
  have hany : ((runOps ops).messages.any (fun m0 => m0.msgid == m.msgid)) = true := by
    obtain ⟨m0, hm0, heq⟩ := hdup
    exact List.any_eq_true.mpr ⟨m0, hm0, by simpa using heq⟩
  unfold persistMessage
  rw [if_pos hany]

/-- C1 witness: one concrete re-delivery is a counted no-op. -/
theorem msgid_dedup_idempotent_witness :
    msgidDistinct (runOps [Op.persist "corp" ⟨1, "m1", "r1", .text, 0, none, none⟩]).messages ∧
    persistMessage (runOps [Op.persist "corp" ⟨1, "m1", "r1", .text, 0, none, none⟩])
        "corp" ⟨2, "m1", "r1", .text, 5, none, none⟩ =
      (runOps [Op.persist "corp" ⟨1, "m1", "r1", .text, 0, none, none⟩],
        PersistOutcome.skippedDuplicate) :=
  msgid_dedup_idempotent [Op.persist "corp" ⟨1, "m1", "r1", .text, 0, none, none⟩]
    "corp" ⟨2, "m1", "r1", .text, 5, none, none⟩
    ⟨⟨1, "m1", "r1", .text, 0, none, none⟩, by decide, rfl⟩

/-- C2: the database-session decorator is atomic on every exit path — the
session is always closed; a normal return is committed exactly once (no
rollback) with the written store published and the result returned; an
exception is rolled back (no commit), the store left untouched, and the
exception re-raised. -/
theorem with_db_session_atomic (σ ε α : Type) (func : σ → Except ε (α × σ)) (db : σ) :
    ((with_db_session func db).2.2.closed = true) ∧
    (∀ (a : α) (db1 : σ), func db = .ok (a, db1) →
      with_db_session func db = (.ok a, db1, ⟨1, 0, true⟩)) ∧
    (∀ e : ε, func db = .error e →
      with_db_session func db = (.error e, db, ⟨0, 1, true⟩)) := by
  unfold with_db_session
  refine ⟨?_, ?_, ?_⟩
  · cases hf : func db with
    | ok v => rfl
    | error e => rfl
  · intro a db1 hf
    rw [hf]
  · intro e hf
    rw [hf]

/-- C2 witness: concrete commit and rollback paths. -/
theorem with_db_session_atomic_witness :
    with_db_session (fun s : Nat => (Except.ok (s + 1, s * 2) : Except String (Nat × Nat))) 3 =
      (.ok 4, 6, ⟨1, 0, true⟩) ∧
    with_db_session (fun _ : Nat => (Except.error "boom" : Except String (Nat × Nat))) 3 =
      (.error "boom", 3, ⟨0, 1, true⟩) :=
  ⟨(with_db_session_atomic Nat String Nat
      (fun s : Nat => (Except.ok (s + 1, s * 2) : Except String (Nat × Nat))) 3).2.1 4 6 rfl,
   (with_db_session_atomic Nat String Nat
      (fun _ : Nat => (Except.error "boom" : Except String (Nat × Nat))) 3).2.2 "boom" rfl⟩

/-- C3: at most one active sync run per target scope — in every reachable
store, no two tasks with the same scope are both non-terminal, and a start
request for a scope that already has an active (pending or running) task is
rejected and leaves the store unchanged, rather than queueing a second
task. -/
theorem single_active_run_per_scope (ops : List Op) (task_id : String)
    (scope : Option String)
    (hactive : ∃ t ∈ (runOps ops).tasks, t.roomid = scope ∧ t.status.isActive = true) :
    scopeExclusive (runOps ops).tasks ∧
    startSync (runOps ops) task_id scope = (runOps ops, StartOutcome.rejected) := by
  refine ⟨(Inv_runOps ops).2.2.2, ?_⟩
  have hany : ((runOps ops).tasks.any
      (fun t => t.roomid == scope && t.status.isActive)) = true := by
    obtain ⟨t, ht, hr, hact⟩ := hactive
    exact List.any_eq_true.mpr ⟨t, ht, by simp [hr, hact]⟩
  unfold startSync
  rw [if_pos hany]

/-- C3 witness: a second start request for an already active scope is
rejected. -/
theorem single_active_run_per_scope_witness :
    scopeExclusive (runOps [Op.start "t1" (some "r1")]).tasks ∧
    startSync (runOps [Op.start "t1" (some "r1")]) "t2" (some "r1") =
      (runOps [Op.start "t1" (some "r1")], StartOutcome.rejected) :=
  single_active_run_per_scope [Op.start "t1" (some "r1")] "t2" (some "r1")
    ⟨⟨"t1", some "r1", .pending⟩, by decide, rfl, rfl⟩

/-- C4: groups, members and messages are never hard-deleted — after any
further sequence of core operations (group deactivation included), every
previously committed message row is still present verbatim, and every
member row and group row is still present under its identity. -/
theorem no_hard_delete (ops more : List Op) :
    (∀ m ∈ (runOps ops).messages, m ∈ (runOps (ops ++ more)).messages) ∧
    (∀ r ∈ (runOps ops).members,
      ∃ r1 ∈ (runOps (ops ++ more)).members, r1.key = r.key) ∧
    (∀ g ∈ (runOps ops).groups,
      ∃ g1 ∈ (runOps (ops ++ more)).groups, g1.roomid = g.roomid) := by
  have hrun : runOps (ops ++ more) = more.foldl ArchiveState.apply (runOps ops) := by
    unfold runOps
    rw [List.foldl_append]
  rw [hrun]
  exact presencePreserved_foldl more (runOps ops)

/-- C4 witness: a committed message, member and group survive a group
deactivation. -/
theorem no_hard_delete_witness :
    (⟨1, "m1", "r1", .text, 0, none, none⟩ : ChatMessage) ∈
      (runOps ([Op.persist "corp" ⟨1, "m1", "r1", .text, 0, none, none⟩,
        Op.upsertMem ⟨"r1", "u1", 10, .member, true, none⟩] ++
        [Op.deactivate "r1"])).messages ∧
    (∃ r1 ∈ (runOps ([Op.persist "corp" ⟨1, "m1", "r1", .text, 0, none, none⟩,
        Op.upsertMem ⟨"r1", "u1", 10, .member, true, none⟩] ++
        [Op.deactivate "r1"])).members,
      r1.key = (⟨"r1", "u1", 10, .member, true, none⟩ : ChatMember).key) ∧
    (∃ g1 ∈ (runOps ([Op.persist "corp" ⟨1, "m1", "r1", .text, 0, none, none⟩,
        Op.upsertMem ⟨"r1", "u1", 10, .member, true, none⟩] ++
        [Op.deactivate "r1"])).groups,
      g1.roomid = "r1") :=
  ⟨(no_hard_delete [Op.persist "corp" ⟨1, "m1", "r1", .text, 0, none, none⟩,
      Op.upsertMem ⟨"r1", "u1", 10, .member, true, none⟩] [Op.deactivate "r1"]).1
      ⟨1, "m1", "r1", .text, 0, none, none⟩ (by decide),
   (no_hard_delete [Op.persist "corp" ⟨1, "m1", "r1", .text, 0, none, none⟩,
      Op.upsertMem ⟨"r1", "u1", 10, .member, true, none⟩] [Op.deactivate "r1"]).2.1
      ⟨"r1", "u1", 10, .member, true, none⟩ (by decide),
   (no_hard_delete [Op.persist "corp" ⟨1, "m1", "r1", .text, 0, none, none⟩,
      Op.upsertMem ⟨"r1", "u1", 10, .member, true, none⟩] [Op.deactivate "r1"]).2.2
      ⟨"r1", "", "corp", 0, true⟩ (by decide)⟩

/-- C5: counter reconciliation — over a run whose known total is the number
of envelopes its batches account for, every observable counter state (before
any batch and after each batch) satisfies success_count + error_count ≤
progress and progress ≤ total_count. -/
theorem counters_reconcile (batches : List BatchResult) (total : Nat)
    (htotal : total = (batches.map BatchResult.size).sum) :
    ∀ c ∈ counterObservations total batches,
      c.success_count + c.error_count ≤ c.progress ∧ c.progress ≤ c.total_count := by
  unfold counterObservations
  refine counters_scanl_inv batches (SyncCounters.init total) ?_ ?_
  · simp [SyncCounters.init]
  · simp [SyncCounters.init, htotal]

/-- C5 witness: the invariant at a concrete mid-run observation point. -/
theorem counters_reconcile_witness :
    (SyncCounters.mk 4 7 2 1).success_count + (SyncCounters.mk 4 7 2 1).error_count ≤
      (SyncCounters.mk 4 7 2 1).progress ∧
    (SyncCounters.mk 4 7 2 1).progress ≤ (SyncCounters.mk 4 7 2 1).total_count :=
  counters_reconcile [⟨2, 1, 1⟩, ⟨3, 0, 0⟩] 7 (by decide)
    (SyncCounters.mk 4 7 2 1) (by decide)

/-- C6: the message type tag is a closed twelve-variant set — every value of
the `MessageType` enum is one of the twelve declared members, and the
string-to-member lookup accepts a string exactly when it is one of the
twelve declared enum values. -/
theorem message_type_closed :
    (∀ t : MessageType, t ∈ MessageType.all) ∧
    (∀ s : String, (MessageType.fromString s).isSome = true ↔
      s ∈ ["text", "image", "voice", "video", "file", "location", "link",
           "miniprogram", "card", "system", "revoke", "emotion"]) := by
  constructor
  · intro t
    cases t <;> simp [MessageType.all]
  · intro s
    constructor
    · intro hsome
      obtain ⟨t, ht, hval⟩ := List.find?_isSome.mp hsome
      have hv : t.value = s := by simpa using hval
      cases t <;> simp [MessageType.value] at hv <;> simp [← hv]
    · intro hs
      simp only [List.mem_cons, List.not_mem_nil, or_false] at hs
      rcases hs with rfl | rfl | rfl | rfl | rfl | rfl | rfl | rfl | rfl | rfl | rfl | rfl <;>
        decide

/-- C7: member identity is the composite (roomid, userid, join_time) — in
every reachable store the triples of stored member records are pairwise
distinct, and upserting a record whose triple is fresh (a rejoin carrying a
new join_time) appends a new record, leaving every earlier record in
place rather than overwriting it. -/
theorem member_identity_composite (ops : List Op) (rec : ChatMember)
    (hfresh : ∀ r ∈ (runOps ops).members, r.key ≠ rec.key) :
    memberKeysDistinct (runOps ops).members ∧
    (upsertMember (runOps ops) rec).members = (runOps ops).members ++ [rec] := by
  refine ⟨(Inv_runOps ops).2.2.1, ?_⟩
  have hany : ((runOps ops).members.any (fun r => r.key == rec.key)) = false := by
    rw [List.any_eq_false]
    intro r hr
    simpa using hfresh r hr
  unfold upsertMember
  rw [if_neg (by simp [hany])]

/-- C7 witness: a concrete rejoin with a new join_time produces a second
record and keeps the first. -/
theorem member_identity_composite_witness :
    memberKeysDistinct (runOps [Op.upsertMem ⟨"r1", "u1", 10, .member, true, none⟩]).members ∧
    (upsertMember (runOps [Op.upsertMem ⟨"r1", "u1", 10, .member, true, none⟩])
        ⟨"r1", "u1", 20, .member, true, none⟩).members =
      (runOps [Op.upsertMem ⟨"r1", "u1", 10, .member, true, none⟩]).members ++
        [⟨"r1", "u1", 20, .member, true, none⟩] :=
  member_identity_composite [Op.upsertMem ⟨"r1", "u1", 10, .member, true, none⟩]
    ⟨"r1", "u1", 20, .member, true, none⟩ (by decide)

/-- C8: the seq column is globally unique across all groups and tenants — in
every reachable store, two distinct stored messages have different seq
values, with no hypothesis relating their rooms or owning tenants. -/
theorem seq_globally_unique (ops : List Op) (m1 m2 : ChatMessage)
    (h1 : m1 ∈ (runOps ops).messages) (h2 : m2 ∈ (runOps ops).messages)
    (hne : m1 ≠ m2) : m1.seq ≠ m2.seq := by
  have hpw : seqDistinct (runOps ops).messages := (Inv_runOps ops).2.1
  exact List.Pairwise.forall (fun a b hab => (Ne.symm hab)) hpw h1 h2 hne

/-- C8 witness: two concrete committed messages in different groups have
different seq values. -/
theorem seq_globally_unique_witness :
    (⟨1, "m1", "r1", .text, 0, none, none⟩ : ChatMessage).seq ≠
      (⟨2, "m2", "r2", .text, 0, none, none⟩ : ChatMessage).seq :=
  seq_globally_unique
    [Op.persist "corpA" ⟨1, "m1", "r1", .text, 0, none, none⟩,
     Op.persist "corpB" ⟨2, "m2", "r2", .text, 0, none, none⟩]
    ⟨1, "m1", "r1", .text, 0, none, none⟩
    ⟨2, "m2", "r2", .text, 0, none, none⟩
    (by decide) (by decide) (by decide)

/-- C9 counterexample: at progress = 1 and total_count = −1 the source
property returns 0 while the claim's formula ("otherwise it equals progress
divided by total_count times 100, rounded") demands −100, so the claim as
stated is false for a negative total_count. -/
theorem progress_percentage_claim_cex :
    progress_percentage 1 (some (-1)) = 0 ∧
    progress_percentage_claimed 1 (some (-1)) = -100 ∧
    progress_percentage 1 (some (-1)) ≠ progress_percentage_claimed 1 (some (-1)) := by
  refine ⟨?_, ?_, ?_⟩
  · simp [progress_percentage]
  · norm_num [progress_percentage_claimed, round2, round_eq]
  · norm_num [progress_percentage, progress_percentage_claimed, round2, round_eq]

/-- C9 (amended): `progress_percentage` is total — it returns 0 when
total_count is unset, zero or negative, and equals progress divided by
total_count times 100 rounded to two decimals exactly when total_count is
positive. -/
theorem progress_percentage_total (p t : Int) :
    progress_percentage p none = 0 ∧
    (t ≤ 0 → progress_percentage p (some t) = 0) ∧
    (0 < t → progress_percentage p (some t) =
      round2 (((p : ℚ) / (t : ℚ)) * 100)) := by
  refine ⟨rfl, ?_, ?_⟩
  · intro ht
    simp only [progress_percentage]
    rw [if_neg]
    omega
  · intro ht
    simp only [progress_percentage]
    rw [if_pos]
    omega

/-- C9 witness: concrete unset, nonpositive and positive totals. -/
theorem progress_percentage_total_witness :
    progress_percentage 5 none = 0 ∧
    progress_percentage 5 (some (-2)) = 0 ∧
    progress_percentage 5 (some 10) = round2 (((5 : ℚ) / (10 : ℚ)) * 100) :=
  ⟨(progress_percentage_total 5 10).1,
   (progress_percentage_total 5 (-2)).2.1 (by decide),
   (progress_percentage_total 5 10).2.2 (by decide)⟩

/-- C10: a sync-task request with both bounds set is accepted only when
end_time is strictly after start_time — both present with end_time ≤
start_time is rejected with an error, both present with end_time after
start_time passes, and a request with either bound absent is not rejected by
this rule. -/
theorem end_time_validator (sv ev : Int) :
    (ev ≤ sv → end_time_must_be_after_start_time (some sv) (some ev) =
      .error "结束时间必须晚于开始时间") ∧
    (sv < ev → end_time_must_be_after_start_time (some sv) (some ev) = .ok (some ev)) ∧
    (end_time_must_be_after_start_time none (some ev) = .ok (some ev)) ∧
    (end_time_must_be_after_start_time (some sv) none = .ok none) ∧
    (end_time_must_be_after_start_time none none = .ok none) := by
  refine ⟨?_, ?_, rfl, rfl, rfl⟩
  · intro h
    simp only [end_time_must_be_after_start_time]
    rw [if_pos h]
  · intro h
    simp only [end_time_must_be_after_start_time]
    rw [if_neg (by omega)]

/-- C10 witness: concrete rejected, accepted and absent-bound requests. -/
theorem end_time_validator_witness :
    (end_time_must_be_after_start_time (some 10) (some 5) =
      .error "结束时间必须晚于开始时间") ∧
    (end_time_must_be_after_start_time (some 1) (some 5) = .ok (some 5)) ∧
    (end_time_must_be_after_start_time none (some 5) = .ok (some 5)) ∧
    (end_time_must_be_after_start_time (some 10) none = .ok none) :=
  ⟨(end_time_validator 10 5).1 (by decide),
   (end_time_validator 1 5).2.1 (by decide),
   (end_time_validator 1 5).2.2.1,
   (end_time_validator 10 5).2.2.2.1⟩

end WeworkArchive
